import Mathlib

set_option maxHeartbeats 1000000

/-!
Shallow embedding of two chromedriver components and proofs about them:
log_replay/devtools_log_reader.cc (the DevTools log reader: header parsing and
quote-aware payload extraction) and net/sync_websocket_impl.cc (the synchronous
websocket Core: blocking receive, connect retry, close handling).
-/

/-! ## Stream model: std::istringstream over one log line -/

/-- Characters the default C++ stream locale treats as whitespace. -/
def isStreamSpace (ch : Char) : Bool :=
  ch == ' ' || ch == '\t' || ch == '\n' || ch == '\x0b' || ch == '\x0c' || ch == '\r'

/-- State of an istringstream cursor: the characters not yet consumed and a
    flag covering failbit/eofbit.  Either bit makes every later extraction a
    no-op, because both the formatted and the unformatted input sentries fail
    when one of them is set, so one flag models both. -/
structure ISS where
  rest : List Char
  fail : Bool
deriving DecidableEq, Repr

/-- Models operator>> into a std::string: skip whitespace, then take the
    maximal non-whitespace run.  On failure the target is erased to "" and
    failbit is set; extraction that consumes the input to its very end sets
    eofbit, which also blocks every later operation. -/
def readToken (s : ISS) : String × ISS :=
  if s.fail then ("", s)
  else
    let r := s.rest.dropWhile (fun ch => isStreamSpace ch)
    match r with
    | [] => ("", { rest := [], fail := true })
    | _ :: _ =>
      let tok := r.takeWhile (fun ch => !(isStreamSpace ch))
      let r2 := r.dropWhile (fun ch => !(isStreamSpace ch))
      (String.mk tok, { rest := r2, fail := r2.isEmpty })

/-- Models istream::ignore n: discards up to n characters; reaching the end of
    the input before n characters were discarded sets eofbit. -/
def ignoreN (s : ISS) (n : Nat) : ISS :=
  if s.fail then s
  else if s.rest.length < n then { rest := [], fail := true }
  else { rest := s.rest.drop n, fail := false }

/-- Decimal digits to a natural number, most significant first. -/
def digitsToNat (ds : List Char) : Nat :=
  ds.foldl (fun a ch => a * 10 + (ch.toNat - 48)) 0

/-- Models operator>> into an int with C++11 semantics: the sentry skips
    whitespace and fails at end of input leaving the old value; otherwise an
    optional sign and a digit run are read; no digits sets failbit and stores
    0; consuming the input to its end sets eofbit. -/
def readInt (s : ISS) (old : Int) : Int × ISS :=
  if s.fail then (old, s)
  else
    let r := s.rest.dropWhile (fun ch => isStreamSpace ch)
    match r with
    | [] => (old, { rest := [], fail := true })
    | _ :: _ =>
      let sign : Int := if r.head? = some '-' then -1 else 1
      let r1 := if r.head? = some '-' ∨ r.head? = some '+' then r.drop 1 else r
      let ds := r1.takeWhile (fun ch => ch.isDigit)
      if ds.isEmpty then (0, { rest := r1, fail := true })
      else
        let r2 := r1.dropWhile (fun ch => ch.isDigit)
        (sign * (digitsToNat ds : Int), { rest := r2, fail := r2.isEmpty })

/-- GetId from devtools_log_reader.cc: starts from id = 0, ignores 5
    characters (the " (id=" prefix), reads an integer, then ignores 1
    character (the closing parenthesis). -/
def GetId (s : ISS) : Int × ISS :=
  let s1 := ignoreN s 5
  let (id, s2) := readInt s1 0
  (id, ignoreN s2 1)

/-! ## Log entry model and the LogEntry header constructor -/

inductive Protocol | HTTP | WebSocket
deriving DecidableEq, Repr

inductive EventType | request | response | event
deriving DecidableEq, Repr

/-- One parsed log entry.  The defaults are the initial field values of the
    class declaration: command_name and payload are empty std::strings and the
    id starts at 0, the value the grammar also uses for "absent". -/
structure LogEntry where
  protocol_type : Protocol := .HTTP
  event_type : EventType := .request
  command_name : String := ""
  id : Int := 0
  payload : String := ""
  error : Bool := false
deriving DecidableEq, Repr

/-- Tail of the LogEntry constructor after the protocol and event tokens were
    decoded: every combination except (HTTP, Response) reads a command name
    (an empty one is a failure), and the non-HTTP ones additionally read the
    (id=N) suffix, where id 0 means failure. -/
def parseCommand (pt : Protocol) (et : EventType) (s : ISS) : LogEntry × ISS :=
  if pt = .HTTP ∧ et = .response then
    ({ protocol_type := pt, event_type := et }, s)
  else
    let (cn, s1) := readToken s
    if cn = "" then ({ protocol_type := pt, event_type := et, error := true }, s1)
    else if pt ≠ .HTTP then
      let (i, s2) := GetId s1
      if i = 0 then
        ({ protocol_type := pt, event_type := et, command_name := cn, error := true }, s2)
      else ({ protocol_type := pt, event_type := et, command_name := cn, id := i }, s2)
    else ({ protocol_type := pt, event_type := et, command_name := cn }, s1)

/-- Middle of the LogEntry constructor: decode the event token. -/
def parseEvent (pt : Protocol) (s : ISS) : LogEntry × ISS :=
  let (ets, s1) := readToken s
  if ets = "Response:" then parseCommand pt .response s1
  else if ets = "Command:" then parseCommand pt .request s1
  else if ets = "Request:" then parseCommand pt .request s1
  else if ets = "Event:" then parseCommand pt .event s1
  else ({ protocol_type := pt, error := true }, s1)

/-- The LogEntry constructor taking the header stream positioned after the
    DevTools token: decode the protocol token, then the rest of the header. -/
def LogEntry.make (s : ISS) : LogEntry × ISS :=
  let (pts, s1) := readToken s
  if pts = "HTTP" then parseEvent .HTTP s1
  else if pts = "WebSocket" then parseEvent .WebSocket s1
  else ({ error := true }, s1)

/-! ## Header recognition -/

/-- base::MatchPattern semantics: a question mark matches zero or one
    character, an asterisk zero or more, a backslash escapes the following
    pattern character, everything else is literal.  The 16-wildcard limit of
    the real implementation is not modelled; the single pattern used by the
    reader has 13 wildcards, under the limit. -/
def matchPatternGo : Nat → List Char → List Char → Bool
  | 0, _, _ => false
  | fuel + 1, pat, s =>
    match pat, s with
    | [], [] => true
    | [], _ :: _ => false
    | '*' :: ps, [] => matchPatternGo fuel ps []
    | '*' :: ps, c :: ss =>
      matchPatternGo fuel ps (c :: ss) || matchPatternGo fuel ('*' :: ps) ss
    | '?' :: ps, [] => matchPatternGo fuel ps []
    | '?' :: ps, c :: ss =>
      matchPatternGo fuel ps (c :: ss) || matchPatternGo fuel ps ss
    | '\\' :: p :: ps, [] => false
    | '\\' :: p :: ps, c :: ss => (c == p) && matchPatternGo fuel ps ss
    | p :: ps, [] => false
    | p :: ps, c :: ss => (c == p) && matchPatternGo fuel ps ss

/-- Entry point with enough fuel: every recursive step of the matcher shrinks
    the summed length of the pattern and the subject by at least one. -/
def matchPattern (pat s : List Char) : Bool :=
  matchPatternGo (pat.length + s.length + 1) pat s

/-- The pattern the reader checks a line's first token against. -/
def headerPattern : List Char := "[??????????.???][DEBUG]:".toList

/-- DevToolsLogReader::IsHeader: the first token must match the
    timestamp/DEBUG pattern and the second token must be exactly DevTools. -/
def IsHeader (s : ISS) : Bool × ISS :=
  let (w1, s1) := readToken s
  if matchPattern headerPattern w1.toList then
    let (w2, s2) := readToken s1
    (w2 == "DevTools", s2)
  else (false, s1)

/-! ## Payload extraction -/

/-- Models getline from the header stream: the unformatted sentry fails when
    failbit or eofbit is set, leaving the erased target ""; otherwise the
    whole remaining line is extracted. -/
def getlineISS (s : ISS) : String :=
  if s.fail then "" else String.mk s.rest

/-- Loop body of DevToolsLogReader::CountChar, carrying the in-quote flag and
    the previous character (none at line start).  A quote toggles the flag
    only when the immediately preceding character is not a literal
    backslash. -/
def countCharGo (o c : Char) : Bool → Option Char → List Char → Int → Int
  | _, _, [], total => total
  | inQuote, prev, ch :: cs, total =>
    let t1 := if !inQuote && ch == o then total + 1 else total
    let t2 := if !inQuote && ch == c then t1 - 1 else t1
    let q := if ch == '"' && !(prev == some '\\') then !inQuote else inQuote
    countCharGo o c q (some ch) cs t2

/-- DevToolsLogReader::CountChar: net count of opening minus closing
    delimiters outside quoted strings. -/
def CountChar (line : String) (o c : Char) : Int :=
  countCharGo o c false none line.toList 0

/-- The accumulation loop of GetJSONString: append the current line, update
    the delimiter balance, stop when it returns to zero, fail with "" when
    the file runs out first.  Returns the payload and the lines left in the
    file. -/
def jsonLoop : Char → Char → Int → String → String → List String → String × List String
  | o, c, count, json, next, lines =>
    if count + CountChar next o c = 0 then (json ++ next, lines)
    else
      match lines with
      | [] => ("", [])
      | l :: ls => jsonLoop o c (count + CountChar next o c) (json ++ next) l ls

/-- DevToolsLogReader::GetJSONString.  The argument r is what getline returns
    from the header stream, i.e. the remainder of the header line.  The none
    result models the std::out_of_range exception thrown by substr 1 on an
    empty remainder; every other input produces some result.  After dropping
    the one separator character, the first remaining character selects the
    delimiter pair, anything else failing with "". -/
def GetJSONString (r : String) (lines : List String) : Option (String × List String) :=
  if r = "" then none
  else
    match (r.toList.drop 1).head? with
    | some '\x7b' =>
      some (jsonLoop '\x7b' '\x7d' 0 "" (String.mk (r.toList.drop 1)) lines)
    | some '[' =>
      some (jsonLoop '[' ']' 0 "" (String.mk (r.toList.drop 1)) lines)
    | _ => some ("", lines)

/-! ## The reader loop -/

/-- DevToolsLogReader::GetNext over an explicit list of the lines remaining in
    the log file (eof holds exactly when the list is empty).  The outer Option
    is none exactly when GetJSONString would throw; otherwise the pair holds
    the nullable returned entry (none models the nullptr return) and the lines
    left unconsumed. -/
def GetNext (pt : Protocol) : List String → Option (Option LogEntry × List String)
  | [] => some (none, [])
  | line :: rest =>
    let s0 : ISS := { rest := line.toList, fail := false }
    let (isH, s1) := IsHeader s0
    if isH then
      let (e, s2) := LogEntry.make s1
      if e.error then some (none, rest)
      else if e.protocol_type = pt then
        if e.event_type = .request ∧ e.protocol_type = .HTTP then some (some e, rest)
        else
          match GetJSONString (getlineISS s2) rest with
          | none => none
          | some (payload, rest2) =>
            if payload = "" then some (none, rest2)
            else some (some { e with payload := payload }, rest2)
      else GetNext pt rest
    else GetNext pt rest

/-! ## Synchronous websocket Core: shared state and callbacks -/

inductive RecvStatus | ok | timeout | disconnected
deriving DecidableEq, Repr

/-- The state of SyncWebSocketImpl::Core that is guarded by lock_: the FIFO of
    received messages and the connection flag. -/
structure CoreState where
  received_queue : List String := []
  is_connected : Bool := false
deriving DecidableEq, Repr

/-- Core::OnMessageReceived: push the message to the back of the queue (the
    Signal that wakes waiters is represented by a wake step in the receive
    model). -/
def onMessageReceived (st : CoreState) (m : String) : CoreState :=
  { st with received_queue := st.received_queue ++ [m] }

/-- Core::OnClose: mark the connection disconnected (and wake waiters). -/
def onClose (st : CoreState) : CoreState :=
  { st with is_connected := false }

/-- An action another thread performs on the Core while a receiver waits. -/
inductive WSEvent
  | msg (m : String)
  | close
deriving DecidableEq, Repr

def applyEvent (st : CoreState) : WSEvent → CoreState
  | .msg m => onMessageReceived st m
  | .close => onClose st

def applyEvents (st : CoreState) (evs : List WSEvent) : CoreState :=
  evs.foldl applyEvent st

/-- Core::ReceiveNextMessage.  budget is the remaining time of the caller's
    timeout on entry.  wakes lists what each TimedWait wake-up delivers: the
    pair (d, evs) says the wait woke after d time units with the events evs
    applied (evs empty is a spurious wake).  An empty wakes list means no
    further signal arrives, so the pending TimedWait consumes the whole
    remaining budget, and likewise a wake that does not come strictly inside
    the budget.  Returns the status, the message written to the out
    parameter, and the state left behind. -/
def recvLoop : CoreState → Int → List (Int × List WSEvent) →
    RecvStatus × Option String × CoreState
  | st, budget, wakes =>
    if st.received_queue = [] ∧ st.is_connected = true then
      if budget ≤ 0 then (.timeout, none, st)
      else
        match wakes with
        | [] => (.timeout, none, st)
        | (d, evs) :: rest =>
          if budget ≤ d then (.timeout, none, st)
          else recvLoop (applyEvents st evs) (budget - d) rest
    else if st.is_connected = false then (.disconnected, none, st)
    else
      match st.received_queue with
      | [] => (.ok, none, st)
      | m :: ms => (.ok, some m, { st with received_queue := ms })

/-- The public ReceiveNextMessage entry point. -/
def receiveNextMessage (st : CoreState) (budget : Int)
    (wakes : List (Int × List WSEvent)) : RecvStatus × Option String × CoreState :=
  recvLoop st budget wakes

/-- Core::HasNextMessage: non-blocking queue-empty check under the lock. -/
def hasNextMessage (st : CoreState) : Bool :=
  !st.received_queue.isEmpty

/-! ## Connect and its retry loop -/

/-- Core::ConnectOnIO.  hasSocket models socket_ being non-null.  The task
    first clears the queue under the lock, then performs the already-connected
    re-check: in that branch nothing further runs.  The returned Bool records
    whether the per-attempt success and event pointers were passed on, i.e.
    bound into the completion callback where they get dereferenced; in the
    early-return branch they are not touched at all. -/
def connectOnIo (st : CoreState) (hasSocket : Bool) : CoreState × Bool :=
  let st1 := { st with received_queue := [] }
  if hasSocket ∧ st1.is_connected = true then (st1, false)
  else (st1, true)

/-- The attempt bound of Core::Connect's loop. -/
def connectMaxAttempts : Nat := 3

/-- The per-attempt TimedWait budget of Core::Connect, in seconds. -/
def connectWaitSeconds : Int := 10

/-- Core::Connect's loop over per-attempt outcomes: some b when the event
    fired within the budget with the success flag set to b (break and return
    it), none when the wait timed out (log and retry).  When the outcome list
    runs out every remaining wait times out, so the initial false is
    returned. -/
def connectGo : Nat → List (Option Bool) → Bool → Bool
  | 0, _, success => success
  | _ + 1, [], success => success
  | _ + 1, some b :: _, _ => b
  | n + 1, none :: rest, success => connectGo n rest success

/-- Core::Connect: up to connectMaxAttempts attempts, success initially
    false. -/
def connect (attempts : List (Option Bool)) : Bool :=
  connectGo connectMaxAttempts attempts false

/-! ## Claims about the log reader -/

/-- The log of claim C1: the HTTP Command header for Page.navigate followed by
    the one payload line. -/
def c1log : List String :=
  ["[1234567890.123][DEBUG]: DevTools HTTP Command: Page.navigate",
   "\x7b\"url\":\"http://x\"\x7d"]

/-- C1, counterexample: on the claimed input, GetNext for the HTTP protocol
    returns the entry with protocol HTTP, event Request, command name
    Page.navigate and id 0, but the payload field is the empty string and not
    the payload text, because GetNext skips payload extraction for entries
    that are HTTP requests; the payload line is left unconsumed. -/
theorem c1_counterexample :
    GetNext Protocol.HTTP c1log =
      some (some { protocol_type := .HTTP, event_type := .request,
                   command_name := "Page.navigate", id := 0, payload := "",
                   error := false },
            ["\x7b\"url\":\"http://x\"\x7d"]) ∧
    ("" : String) ≠ "\x7b\"url\":\"http://x\"\x7d" := by
  exact ⟨by decide, by decide⟩

/-- C1, amended: for the header line HTTP Command: Page.navigate followed by
    the payload line, GetNext(HTTP) returns a LogEntry with protocolType HTTP,
    eventType Request, commandName Page.navigate, id 0, and an empty payload;
    the payload text is not attached because HTTP requests carry no payload in
    this reader. -/
theorem c1_amended :
    GetNext Protocol.HTTP c1log =
      some (some { protocol_type := .HTTP, event_type := .request,
                   command_name := "Page.navigate", id := 0, payload := "",
                   error := false },
            ["\x7b\"url\":\"http://x\"\x7d"]) := by decide

/-- C5: payload extraction is quote-aware.  The one-line payload containing a
    closing brace inside a quoted string extracts as the full text instead of
    short-circuiting at the embedded delimiter; a quote immediately preceded
    by a literal backslash does not toggle the in-quote flag of the balance
    scanner; and at line start (no previous character) a quote does toggle
    it. -/
theorem c5_quote_aware :
    GetJSONString " \x7b\"a\":\"\x7d\"\x7d" [] =
      some ("\x7b\"a\":\"\x7d\"\x7d", []) ∧
    (∀ q cs t, countCharGo '\x7b' '\x7d' q (some '\\') ('"' :: cs) t =
      countCharGo '\x7b' '\x7d' q (some '"') cs t) ∧
    (∀ q cs t, countCharGo '\x7b' '\x7d' q none ('"' :: cs) t =
      countCharGo '\x7b' '\x7d' (!q) (some '"') cs t) := by
  refine ⟨rfl, ?_, ?_⟩ <;> intro q cs t <;> cases q <;> rfl

/-- C10: GetJSONString is partial exactly in the empty-remainder case.  The
    none result (the out-of-range substr call) occurs precisely when getline
    on the header stream produced the empty string, i.e. when no character
    follows the header tokens; every non-empty remainder yields some result;
    and a concrete matched header line with an empty remainder makes GetNext
    crash rather than return. -/
theorem c10_substr_precondition (r : String) (lines : List String) :
    (GetJSONString "" lines = none) ∧
    (r ≠ "" → GetJSONString r lines ≠ none) ∧
    (GetNext Protocol.HTTP ["[1234567890.123][DEBUG]: DevTools HTTP Response:"]
      = none) := by
  refine ⟨by simp [GetJSONString], ?_, by decide⟩
  intro h
  simp only [GetJSONString, if_neg h]
  split <;> simp

/-- C10, witness: a concrete non-empty remainder is extracted without the
    out-of-range failure. -/
theorem c10_witness : GetJSONString " x" [] ≠ none :=
  (c10_substr_precondition " x" []).2.1 (by decide)

/-! ## Claims about the synchronous websocket Core -/

/-- C2: ReceiveNextMessage resolves to one of the three statuses with the
    documented behavior: an empty connected queue with an exhausted budget
    (including one that is 0 on entry) returns Timeout, waiting with no signal
    arriving in time returns Timeout, a close event firing during the wait
    inside the budget returns Disconnected, and a connected queue with a front
    message pops it and returns Ok. -/
theorem c2_receive_statuses (st : CoreState) (budget d : Int)
    (wakes rest : List (Int × List WSEvent)) (m : String) (ms : List String) :
    (st.received_queue = [] → st.is_connected = true → budget ≤ 0 →
      receiveNextMessage st budget wakes = (.timeout, none, st)) ∧
    (st.received_queue = [] → st.is_connected = true → 0 < budget →
      receiveNextMessage st budget [] = (.timeout, none, st)) ∧
    (st.received_queue = [] → st.is_connected = true → 0 ≤ d → d < budget →
      receiveNextMessage st budget ((d, [WSEvent.close]) :: rest) =
        (.disconnected, none, onClose st)) ∧
    (st.received_queue = m :: ms → st.is_connected = true →
      receiveNextMessage st budget wakes =
        (.ok, some m, { st with received_queue := ms })) := by
  refine ⟨?_, ?_, ?_, ?_⟩
  · intro hq hc hb
    rw [receiveNextMessage, recvLoop.eq_def]
    simp [hq, hc, hb]
  · intro hq hc hb
    rw [receiveNextMessage, recvLoop.eq_def]
    simp [hq, hc, not_le.mpr hb]
  · intro hq hc _ hd
    have hb : ¬budget ≤ 0 := by omega
    have hbd : ¬budget ≤ d := by omega
    rw [receiveNextMessage, recvLoop.eq_def]
    simp only [hq, hc, and_self, if_true, if_neg hb, if_neg hbd]
    rw [recvLoop.eq_def]
    simp [applyEvents, applyEvent, onClose]
  · intro hq hc
    rw [receiveNextMessage, recvLoop.eq_def]
    simp [hq, hc]

/-- C2, witness: the four status behaviors at concrete states. -/
theorem c2_witness :
    receiveNextMessage { received_queue := [], is_connected := true } 0 [] =
      (.timeout, none, { received_queue := [], is_connected := true }) ∧
    receiveNextMessage { received_queue := [], is_connected := true } 5 [] =
      (.timeout, none, { received_queue := [], is_connected := true }) ∧
    receiveNextMessage { received_queue := [], is_connected := true } 5
        [(1, [WSEvent.close])] =
      (.disconnected, none, onClose { received_queue := [], is_connected := true }) ∧
    receiveNextMessage { received_queue := ["a"], is_connected := true } 5 [] =
      (.ok, some "a", { received_queue := [], is_connected := true }) := by
  refine ⟨?_, ?_, ?_, ?_⟩
  · exact (c2_receive_statuses { received_queue := [], is_connected := true }
      0 0 [] [] "" []).1 rfl rfl (by decide)
  · exact (c2_receive_statuses { received_queue := [], is_connected := true }
      5 0 [] [] "" []).2.1 rfl rfl (by decide)
  · exact (c2_receive_statuses { received_queue := [], is_connected := true }
      5 1 [] [] "" []).2.2.1 rfl rfl (by decide) (by decide)
  · exact (c2_receive_statuses { received_queue := ["a"], is_connected := true }
      5 0 [] [] "a" []).2.2.2 rfl rfl

/-- C9: once the close callback has marked the connection disconnected, every
    ReceiveNextMessage call returns Disconnected without popping anything,
    whatever the queue holds and whatever budget or wake schedule is given,
    while HasNextMessage still reports true for a non-empty queue. -/
theorem c9_disconnected_queue (st : CoreState) (budget : Int)
    (wakes : List (Int × List WSEvent)) :
    (receiveNextMessage (onClose st) budget wakes =
      (.disconnected, none, onClose st)) ∧
    (st.received_queue ≠ [] → hasNextMessage (onClose st) = true) := by
  constructor
  · rw [receiveNextMessage, recvLoop.eq_def]
    simp [onClose]
  · intro h
    simp [hasNextMessage, onClose, h]

/-- C9, witness: a message enqueued before the close is not delivered but is
    still reported by HasNextMessage. -/
theorem c9_witness :
    receiveNextMessage (onClose { received_queue := ["a"], is_connected := true })
        7 [] =
      (.disconnected, none,
        onClose { received_queue := ["a"], is_connected := true }) ∧
    hasNextMessage (onClose { received_queue := ["a"], is_connected := true })
      = true := by
  have h := c9_disconnected_queue
    { received_queue := ["a"], is_connected := true } 7 []
  exact ⟨h.1, h.2 (by decide)⟩

/-- C3: a posted connect task that finds the socket present and already
    connected returns right after the queue clearing, and the per-attempt
    success and event handles are not passed anywhere, so a stale pair from a
    timed-out attempt is never dereferenced in that branch. -/
theorem c3_stale_handles (st : CoreState) (hc : st.is_connected = true) :
    connectOnIo st true = ({ st with received_queue := [] }, false) := by
  simp [connectOnIo, hc]

/-- C3, witness: the early-return branch at a concrete connected state. -/
theorem c3_witness :
    connectOnIo { received_queue := ["x"], is_connected := true } true =
      ({ received_queue := [], is_connected := true }, false) :=
  c3_stale_handles { received_queue := ["x"], is_connected := true } rfl

/-- C6: Connect tries up to 3 attempts with a 10 second budget each; an
    attempt whose wait is signalled stops the retrying and its success flag is
    returned, whether it is the first, second or third attempt; three
    exhausted waits return false; and the connect task always clears the
    message queue before anything else. -/
theorem c6_connect_retries :
    (∀ rest b, connect (some b :: rest) = b) ∧
    (∀ rest b, connect (none :: some b :: rest) = b) ∧
    (∀ rest b, connect (none :: none :: some b :: rest) = b) ∧
    (∀ rest, connect (none :: none :: none :: rest) = false) ∧
    (connect [] = false) ∧
    (∀ st hasSocket, ((connectOnIo st hasSocket).1).received_queue = []) ∧
    connectMaxAttempts = 3 ∧ connectWaitSeconds = 10 := by
  refine ⟨fun rest b => rfl, fun rest b => rfl, fun rest b => rfl,
    fun rest => rfl, rfl, ?_, rfl, rfl⟩
  intro st hasSocket
  rw [connectOnIo]
  split <;> rfl

/-- C4: the event token mapping of the header parser, the command-name rule
    for every combination except (HTTP, Response), and the id suffix rule for
    non-HTTP entries.  Response: maps to Response, Command: and Request: map
    to Request, Event: maps to Event, and any other token sets error; outside
    the (HTTP, Response) combination an empty command token sets error; for a
    non-HTTP entry the stored id is the one GetId reads, an id of 0 setting
    error; the (HTTP, Response) combination reads nothing further; and GetId
    itself is the ignore-5, read-integer, ignore-1 sequence. -/
theorem c4_header_decode (pt : Protocol) :
    (∀ s ets s1, readToken s = (ets, s1) →
      (ets = "Response:" → parseEvent pt s = parseCommand pt .response s1) ∧
      (ets = "Command:" → parseEvent pt s = parseCommand pt .request s1) ∧
      (ets = "Request:" → parseEvent pt s = parseCommand pt .request s1) ∧
      (ets = "Event:" → parseEvent pt s = parseCommand pt .event s1) ∧
      (ets ≠ "Response:" → ets ≠ "Command:" → ets ≠ "Request:" → ets ≠ "Event:" →
        (parseEvent pt s).1.error = true)) ∧
    (∀ et s cn s1, ¬(pt = .HTTP ∧ et = .response) → readToken s = (cn, s1) →
      (cn = "" → (parseCommand pt et s).1.error = true) ∧
      (cn ≠ "" → pt ≠ .HTTP →
        (parseCommand pt et s).1.id = (GetId s1).1 ∧
        ((GetId s1).1 = 0 → (parseCommand pt et s).1.error = true))) ∧
    (∀ s, parseCommand .HTTP .response s =
      ({ protocol_type := .HTTP, event_type := .response }, s)) ∧
    (∀ s, GetId s = ((readInt (ignoreN s 5) 0).1,
      ignoreN (readInt (ignoreN s 5) 0).2 1)) := by
  refine ⟨?_, ?_, fun s => rfl, ?_⟩
  · intro s ets s1 h
    have hu : parseEvent pt s =
        (if ets = "Response:" then parseCommand pt .response s1
         else if ets = "Command:" then parseCommand pt .request s1
         else if ets = "Request:" then parseCommand pt .request s1
         else if ets = "Event:" then parseCommand pt .event s1
         else ({ protocol_type := pt, error := true }, s1)) := by
      simp only [parseEvent, h]
    refine ⟨?_, ?_, ?_, ?_, ?_⟩
    · intro h1; rw [hu]; simp [h1]
    · intro h1; rw [hu]; simp [h1]
    · intro h1; rw [hu]; simp [h1]
    · intro h1; rw [hu]; simp [h1]
    · intro h1 h2 h3 h4; rw [hu]; simp [h1, h2, h3, h4]
  · intro et s cn s1 hne h
    constructor
    · intro hcn
      simp only [parseCommand, if_neg hne, h]
      simp [hcn]
    · intro hcn hpt
      simp only [parseCommand, if_neg hne, h]
      rcases hG : GetId s1 with ⟨i, s2⟩
      by_cases hi : i = 0 <;> simp [hcn, hpt, hG, hi]
  · intro s
    rcases hR : readInt (ignoreN s 5) 0 with ⟨i, s2⟩
    simp [GetId, hR]

/-- C4, witness: a bogus event token sets error, and a non-HTTP entry whose
    id suffix reads 0 sets error while storing that id. -/
theorem c4_witness :
    (parseEvent Protocol.WebSocket
      { rest := "Bogus: x".toList, fail := false }).1.error = true ∧
    (parseCommand Protocol.WebSocket EventType.event
      { rest := " foo (id=0)".toList, fail := false }).1.error = true ∧
    (parseCommand Protocol.WebSocket EventType.event
      { rest := " foo (id=0)".toList, fail := false }).1.id =
      (GetId { rest := " (id=0)".toList, fail := false }).1 := by
  have h1 := (c4_header_decode Protocol.WebSocket).1
    { rest := "Bogus: x".toList, fail := false } "Bogus:"
    { rest := " x".toList, fail := false } rfl
  have h2 := (c4_header_decode Protocol.WebSocket).2.1 EventType.event
    { rest := " foo (id=0)".toList, fail := false } "foo"
    { rest := " (id=0)".toList, fail := false } (by decide) rfl
  refine ⟨h1.2.2.2.2 (by decide) (by decide) (by decide) (by decide), ?_, ?_⟩
  · exact (h2.2 (by decide) (by decide)).2 (by decide)
  · exact (h2.2 (by decide) (by decide)).1

/-- C7: GetNext aborts with null instead of skipping on decode failures.  If
    the line is recognized as a header and the header parser set error,
    GetNext returns null; and if the entry then needs a payload but payload
    extraction produces the empty string, GetNext also returns null. -/
theorem c7_abort_on_failure (pt : Protocol) (line : String)
    (rest : List String) (s1 : ISS) :
    (IsHeader { rest := line.toList, fail := false } = (true, s1) →
      (LogEntry.make s1).1.error = true →
      GetNext pt (line :: rest) = some (none, rest)) ∧
    (∀ e s2 rest2, IsHeader { rest := line.toList, fail := false } = (true, s1) →
      LogEntry.make s1 = (e, s2) → e.error = false → e.protocol_type = pt →
      ¬(e.event_type = .request ∧ e.protocol_type = .HTTP) →
      GetJSONString (getlineISS s2) rest = some ("", rest2) →
      GetNext pt (line :: rest) = some (none, rest2)) := by
  constructor
  · intro hH hE
    rcases hM : LogEntry.make s1 with ⟨e, s2⟩
    rw [hM] at hE
    simp only [Prod.fst] at hE
    rw [GetNext.eq_def]
    simp only [hH, hM]
    simp [hE]
  · intro e s2 rest2 hH hM hE hP hR hJ
    rw [hP] at hR
    rw [GetNext.eq_def]
    simp only [hH, hM]
    simp [hE, hP, hR, hJ]

/-- C7, witness: a matched header with a bogus event token aborts, and a
    matched header whose payload does not start with a brace or bracket
    aborts. -/
theorem c7_witness :
    GetNext Protocol.HTTP
      ["[1234567890.123][DEBUG]: DevTools HTTP Bogus: x"] = some (none, []) ∧
    GetNext Protocol.HTTP
      ["[1234567890.123][DEBUG]: DevTools HTTP Response: x"] = some (none, []) := by
  constructor
  · exact (c7_abort_on_failure Protocol.HTTP
      "[1234567890.123][DEBUG]: DevTools HTTP Bogus: x" []
      { rest := " HTTP Bogus: x".toList, fail := false }).1 (by decide) (by decide)
  · exact (c7_abort_on_failure Protocol.HTTP
      "[1234567890.123][DEBUG]: DevTools HTTP Response: x" []
      { rest := " HTTP Response: x".toList, fail := false }).2
      { protocol_type := .HTTP, event_type := .response }
      { rest := " x".toList, fail := false } []
      (by decide) (by decide) rfl rfl (by decide) (by decide)

/-- Unfolding of the payload loop at an exhausted file. -/
lemma jsonLoop_nil (o c : Char) (count : Int) (json next : String) :
    jsonLoop o c count json next [] =
      if count + CountChar next o c = 0 then (json ++ next, []) else ("", []) := rfl

/-- Unfolding of the payload loop at a remaining line. -/
lemma jsonLoop_cons (o c : Char) (count : Int) (json next l : String)
    (ls : List String) :
    jsonLoop o c count json next (l :: ls) =
      if count + CountChar next o c = 0 then (json ++ next, l :: ls)
      else jsonLoop o c (count + CountChar next o c) (json ++ next) l ls := rfl

/-- The payload loop only consumes lines: what it leaves is a suffix of what
    it was given. -/
lemma jsonLoop_snd_suffix (o c : Char) :
    ∀ (lines : List String) (count : Int) (json next : String),
      (jsonLoop o c count json next lines).2 <:+ lines := by
  intro lines
  induction lines with
  | nil =>
    intro count json next
    rw [jsonLoop_nil]
    by_cases hc : count + CountChar next o c = 0
    · rw [if_pos hc]
    · rw [if_neg hc]
  | cons l ls ih =>
    intro count json next
    rw [jsonLoop_cons]
    by_cases hc : count + CountChar next o c = 0
    · rw [if_pos hc]
    · rw [if_neg hc]
      exact (ih _ _ _).trans (List.suffix_cons l ls)


/-- Payload extraction only consumes lines: on success the remaining lines
    are a suffix of the input lines. -/
lemma GetJSONString_suffix (r : String) (lines : List String) (p : String)
    (ls2 : List String) (h : GetJSONString r lines = some (p, ls2)) :
    ls2 <:+ lines := by
  rw [GetJSONString] at h
  split at h
  · exact absurd h (by simp)
  · split at h
    · have h2 := Option.some.inj h
      have h3 := jsonLoop_snd_suffix '\x7b' '\x7d' lines 0 ""
        (String.mk (List.drop 1 r.toList))
      rw [h2] at h3
      exact h3
    · have h2 := Option.some.inj h
      have h3 := jsonLoop_snd_suffix '[' ']' lines 0 ""
        (String.mk (List.drop 1 r.toList))
      rw [h2] at h3
      exact h3
    · have h2 : lines = ls2 := congrArg Prod.snd (Option.some.inj h)
      rw [← h2]

/-- Every entry GetNext yields carries the requested protocol, and reading
    only moves forward: the leftover lines are a suffix of the input. -/
lemma getNext_yield (pt : Protocol) :
    ∀ (lines : List String) (e : LogEntry) (rest2 : List String),
      GetNext pt lines = some (some e, rest2) →
      e.protocol_type = pt ∧ rest2 <:+ lines := by
  intro lines
  induction lines with
  | nil =>
    intro e r2 h
    rw [GetNext.eq_def] at h
    simp at h
  | cons line rest ih =>
    intro e r2 h
    rw [GetNext.eq_def] at h
    rcases hH : IsHeader { rest := line.toList, fail := false } with ⟨isH, s1⟩
    simp only [hH] at h
    cases isH with
    | false =>
      simp only [Bool.false_eq_true, if_false] at h
      obtain ⟨h1, h2⟩ := ih e r2 h
      exact ⟨h1, h2.trans (List.suffix_cons line rest)⟩
    | true =>
      rcases hM : LogEntry.make s1 with ⟨le, s2⟩
      simp only [hM, if_true] at h
      by_cases hE : le.error = true
      · rw [if_pos hE] at h
        exact absurd h (by simp)
      · rw [if_neg hE] at h
        by_cases hP : le.protocol_type = pt
        · rw [if_pos hP] at h
          by_cases hQ : le.event_type = .request ∧ le.protocol_type = .HTTP
          · rw [if_pos hQ] at h
            simp only [Option.some.injEq, Prod.mk.injEq] at h
            obtain ⟨hle, hr⟩ := h
            subst hr
            subst hle
            exact ⟨hP, List.suffix_cons line rest⟩
          · rw [if_neg hQ] at h
            rcases hJ : GetJSONString (getlineISS s2) rest with _ | ⟨payload, rls⟩
            · rw [hJ] at h
              exact absurd h (by simp)
            · rw [hJ] at h
              simp only [] at h
              by_cases hpl : payload = ""
              · rw [if_pos hpl] at h
                exact absurd h (by simp)
              · rw [if_neg hpl] at h
                simp only [Option.some.injEq, Prod.mk.injEq] at h
                obtain ⟨hle, hr⟩ := h
                subst hr
                constructor
                · rw [← hle]
                  exact hP
                · exact (GetJSONString_suffix _ _ _ _ hJ).trans
                    (List.suffix_cons line rest)
        · rw [if_neg hP] at h
          obtain ⟨h1, h2⟩ := ih e r2 h
          exact ⟨h1, h2.trans (List.suffix_cons line rest)⟩

/-- C8: GetNext returns null at end of input; a line that is not a header is
    silently skipped, reading continuing on the rest; a well-formed header
    whose protocol differs from the filter is discarded, reading continuing on
    the rest; and every yielded entry carries the requested protocol, with the
    leftover lines a suffix of the input so that repeated calls deliver the
    matching entries in their original order. -/
theorem c8_filter_order (pt : Protocol) (lines : List String) :
    (GetNext pt [] = some (none, [])) ∧
    (∀ line rest s1, IsHeader { rest := line.toList, fail := false } = (false, s1) →
      GetNext pt (line :: rest) = GetNext pt rest) ∧
    (∀ line rest e s1 s2,
      IsHeader { rest := line.toList, fail := false } = (true, s1) →
      LogEntry.make s1 = (e, s2) → e.error = false → e.protocol_type ≠ pt →
      GetNext pt (line :: rest) = GetNext pt rest) ∧
    (∀ e rest2, GetNext pt lines = some (some e, rest2) →
      e.protocol_type = pt ∧ rest2 <:+ lines) := by
  refine ⟨by rw [GetNext.eq_def], ?_, ?_, fun e r2 h => getNext_yield pt lines e r2 h⟩
  · intro line rest s1 hH
    rw [GetNext.eq_def]
    simp only [hH]
    simp
  · intro line rest e s1 s2 hH hM hE hP
    rw [GetNext.eq_def]
    simp only [hH, hM]
    simp [hE, hP]

/-- C8, witness: a prose line is skipped, a mismatched-protocol entry is
    discarded, and the entry yielded from a WebSocket header carries the
    WebSocket protocol with reading past the consumed lines. -/
theorem c8_witness :
    GetNext Protocol.WebSocket
        ["hello",
         "[1234567890.123][DEBUG]: DevTools WebSocket Event: Page.load (id=7) \x7b\x7d"] =
      GetNext Protocol.WebSocket
        ["[1234567890.123][DEBUG]: DevTools WebSocket Event: Page.load (id=7) \x7b\x7d"] ∧
    GetNext Protocol.WebSocket
        ["[1234567890.123][DEBUG]: DevTools HTTP Response: \x7b\x7d"] =
      GetNext Protocol.WebSocket [] ∧
    ((⟨.WebSocket, .event, "Page.load", 7, "\x7b\x7d", false⟩ :
        LogEntry).protocol_type = Protocol.WebSocket ∧
      ([] : List String) <:+
        ["[1234567890.123][DEBUG]: DevTools WebSocket Event: Page.load (id=7) \x7b\x7d"]) := by
  refine ⟨?_, ?_, ?_⟩
  · exact (c8_filter_order Protocol.WebSocket []).2.1 "hello"
      ["[1234567890.123][DEBUG]: DevTools WebSocket Event: Page.load (id=7) \x7b\x7d"]
      { rest := [], fail := true } (by decide)
  · exact (c8_filter_order Protocol.WebSocket []).2.2.1
      "[1234567890.123][DEBUG]: DevTools HTTP Response: \x7b\x7d" []
      { protocol_type := .HTTP, event_type := .response }
      { rest := " HTTP Response: \x7b\x7d".toList, fail := false }
      { rest := " \x7b\x7d".toList, fail := false }
      (by decide) (by decide) rfl (by decide)
  · exact (c8_filter_order Protocol.WebSocket
      ["[1234567890.123][DEBUG]: DevTools WebSocket Event: Page.load (id=7) \x7b\x7d"]).2.2.2
      ⟨.WebSocket, .event, "Page.load", 7, "\x7b\x7d", false⟩ [] (by decide)
